import Mathlib

/-!
Verification of the monster scanner/codec of the HoMM3 map-editor scripts
`RajanHoAEditor_V1.py` (abbreviated V1 below) and `RajanHoAEditor.py`
(abbreviated Main below).

Byte buffers are modelled as `List Nat`, one entry per byte.  The Python
scan loops (`pos = data.find(tag, pos); ...; pos += 1`) are embedded as a
fuel-driven loop `scanFrom` built on `findTag` (the embedding of
`bytes.find` for a 4-byte pattern); the fuel `data.length + 1 - pos` is an
exact bound on the number of iterations, each of which advances the cursor
by at least one byte.  `scanAll` is the per-position characterisation of
the same scan, and `scanFrom_eq_scanAll` proves the two agree.

The external creature table `cd.NAME` (module `data.creatures`, not part
of this repository) enters only through its length and its id → name
lookup, so the scanners are parameterised by `NAME : List String`.
-/

namespace HoMM3

/-- A monster record, as built by the scanners: the Python dicts carry keys
`type`, `subtype` (absent for random monsters, hence `Option`), `quantity`
and `disposition`. -/
structure MonsterRecord where
  type : Nat
  subtype : Option Nat
  quantity : Nat
  disposition : Nat
deriving DecidableEq

/-- Modelled from the spec: `od.ID.Monster` from the external module
`data.objects` (not in the repository); the concrete-monster object type,
tag value 54 (the V1 source comment reads `type 54 = 0x36`). -/
def ID_Monster : Nat := 54

/-- Modelled from the spec: `Disposition.Aggressive` from the external
module `src.handler_08_objects` (not in the repository); numeric code 2,
as recorded by the V1 source comment `#Disposition.Aggressive = 2`. -/
def Disposition_Aggressive : Nat := 2

/-- `int.from_bytes(data[p:p+2], byteorder='little')`, used for the 16-bit
creature-id and quantity fields (the scanners' guards keep both indices in
bounds before this is evaluated). -/
def le16 (data : List Nat) (p : Nat) : Nat :=
  data.getD p 0 + 256 * data.getD (p + 1) 0

/-- Byte-for-byte occurrence of the 4-byte pattern `tag` at offset `p` of
`data` (what a successful `data.find(tag, ...)` hit at `p` means). -/
def tagAt (data tag : List Nat) (p : Nat) : Bool :=
  decide (p + 4 ≤ data.length) &&
    (List.range 4).all (fun i => data.getD (p + i) 0 == tag.getD i 0)

/-- Fuel-driven search loop behind `findTag`; each step either answers or
moves one byte to the right, so `data.length + 1 - pos` fuel is enough. -/
def findTagFuel (data tag : List Nat) : Nat → Nat → Option Nat
  | 0, _ => none
  | fuel + 1, pos =>
    if pos + 4 ≤ data.length then
      if tagAt data tag pos then some pos
      else findTagFuel data tag fuel (pos + 1)
    else none

/-- `data.find(tag, pos)` for a 4-byte pattern `tag`: offset of the first
occurrence at or after `pos`, `none` where Python returns `-1`. -/
def findTag (data tag : List Nat) (pos : Nat) : Option Nat :=
  findTagFuel data tag (data.length + 1 - pos) pos

/-- Fuel-driven version of the shared scanning while-loop: find the next
tag occurrence, evaluate the per-candidate body `step` there (recording
the match offset alongside any record it yields), then resume one byte
after the match (`pos += 1` in the source). -/
def scanFromFuel (data tag : List Nat) (step : Nat → Option MonsterRecord) :
    Nat → Nat → List (Nat × MonsterRecord)
  | 0, _ => []
  | fuel + 1, pos =>
    match findTag data tag pos with
    | none => []
    | some p =>
      (match step p with
        | some r => [(p, r)]
        | none => []) ++ scanFromFuel data tag step fuel (p + 1)

/-- The scanning while-loop of `parse_map_file` (both scripts), one
signature at a time: `pos = data.find(tag_bytes, pos)`, break on `-1`,
evaluate the candidate at the match offset, `pos += 1`. -/
def scanFrom (data tag : List Nat) (step : Nat → Option MonsterRecord) (pos : Nat) :
    List (Nat × MonsterRecord) :=
  scanFromFuel data tag step (data.length + 1 - pos) pos

/-- Per-position characterisation of the scan: every offset from `pos` to
the end of the buffer is considered once, in increasing order, and
contributes `step p` exactly when the tag matches there.  It is proved
equal to `scanFrom` below (`scanFrom_eq_scanAll`). -/
def scanAll (data tag : List Nat) (step : Nat → Option MonsterRecord) (pos : Nat) :
    List (Nat × MonsterRecord) :=
  (List.range' pos (data.length - pos)).filterMap
    (fun p => if tagAt data tag p then (step p).map (fun r => (p, r)) else none)

/-- `b'\x36\x00\x00\x00'`, the concrete-monster signature (type 54). -/
def monster_type_bytes : List Nat := [0x36, 0, 0, 0]

/-- The random-monster object types scanned by both scripts, in source
order: `for monster_type in [71, 72, 73, 74, 75, 162, 163, 164]`. -/
def randomTags : List Nat := [71, 72, 73, 74, 75, 162, 163, 164]

/-- `monster_type.to_bytes(4, byteorder='little')`. -/
def tagBytes (t : Nat) : List Nat :=
  [t % 256, t / 256 % 256, t / 65536 % 256, t / 16777216 % 256]

/-- Body of the V1 concrete-monster loop at match offset `pos`
(`RajanHoAEditor_V1.py` lines 104-132): guarded 16-bit reads of subtype
and quantity, validation `0 <= subtype < len(cd.NAME)` and
`0 <= quantity <= 1000`, record with literal disposition 2.  The
disposition patch of lines 114-119 is commented out in the source and is
therefore absent here. -/
def concreteStepV1 (NAME : List String) (data : List Nat) (pos : Nat) :
    Option MonsterRecord :=
  if pos + 6 < data.length then
    let subtype := le16 data (pos + 4)
    if pos + 8 < data.length then
      let quantity := le16 data (pos + 6)
      if subtype < NAME.length ∧ quantity ≤ 1000 then
        some { type := ID_Monster, subtype := some subtype,
               quantity := quantity, disposition := 2 }
      else none
    else none
  else none

/-- Body of the V1 random-monster loop at match offset `pos`
(`RajanHoAEditor_V1.py` lines 148-166): guarded 16-bit quantity read,
validation `1 <= quantity <= 1000`, record with literal disposition 2. -/
def randomStepV1 (monster_type : Nat) (data : List Nat) (pos : Nat) :
    Option MonsterRecord :=
  if pos + 6 < data.length then
    let quantity := le16 data (pos + 4)
    if 1 ≤ quantity ∧ quantity ≤ 1000 then
      some { type := monster_type, subtype := none,
             quantity := quantity, disposition := 2 }
    else none
  else none

/-- The record-collecting part of V1 `parse_map_file` on a loaded buffer:
the concrete-monster scan in full, then the eight random-monster scans in
the order of `randomTags`, all appended to one list.  Offsets are kept
alongside the records for specification purposes; the script's list is the
`Prod.snd` projection. -/
def scanV1 (NAME : List String) (data : List Nat) : List (Nat × MonsterRecord) :=
  scanFrom data monster_type_bytes (concreteStepV1 NAME data) 0 ++
    (randomTags.map (fun t => scanFrom data (tagBytes t) (randomStepV1 t data) 0)).flatten

/-- V1 `parse_map_file` (lines 85-172).  The gzip load is I/O, so it is
abstracted as `load : Option (List Nat)`: `none` is the `except` branch
(lines 92-94), which returns the empty record list and `data = None`;
otherwise both scans run over the unmodified buffer and the pair
`(monsters, data)` is returned. -/
def parse_map_file (NAME : List String) (load : Option (List Nat)) :
    List MonsterRecord × Option (List Nat) :=
  match load with
  | none => ([], none)
  | some data => ((scanV1 NAME data).map Prod.snd, some data)

/-- V1 `SetMonsterProperty` (lines 202-223): parse, return without writing
when no records were found, otherwise write the returned buffer to the
fixed path `Do2.h3m`.  The result is the single file write performed, as a
`(path, contents)` pair.  The loop that reassigns `monster["disposition"]
= 2` touches only the record dicts, never the buffer, so the written
contents are exactly the loaded buffer. -/
def SetMonsterProperty (NAME : List String) (load : Option (List Nat)) :
    Option (String × List Nat) :=
  let parsed := parse_map_file NAME load
  if parsed.1.isEmpty then none
  else
    match parsed.2 with
    | some data => some ("Do2.h3m", data)
    | none => none

/-- Creature-name resolution of V1 `GetMonsterProperty` (lines 188-195):
`cd.NAME[creature_id] if creature_id < len(cd.NAME) else "Unknown"` for
concrete monsters, a `Random Monster (Type t)` label otherwise. -/
def creatureName (NAME : List String) (m : MonsterRecord) : String :=
  if m.type = ID_Monster then
    let creature_id := m.subtype.getD 0
    if creature_id < NAME.length then NAME.getD creature_id "Unknown" else "Unknown"
  else
    "Random Monster (Type " ++ toString m.type ++ ")"

/-- Body of the Main concrete-monster loop, gzip branch
(`RajanHoAEditor.py` lines 122-157): same guards as V1, validation
`0 <= subtype < len(cd.NAME)` and `0 <= quantity <= 1000`, record with
`Disposition.Aggressive`.  Lines 136-138 additionally read
`data[pos+18]` for printing only; no record field depends on it. -/
def concreteStepGz (NAME : List String) (data : List Nat) (pos : Nat) :
    Option MonsterRecord :=
  if pos + 6 < data.length then
    let subtype := le16 data (pos + 4)
    if pos + 8 < data.length then
      let quantity := le16 data (pos + 6)
      if subtype < NAME.length ∧ quantity ≤ 1000 then
        some { type := ID_Monster, subtype := some subtype,
               quantity := quantity, disposition := Disposition_Aggressive }
      else none
    else none
  else none

/-- Body of the Main random-monster loop, gzip branch (`RajanHoAEditor.py`
lines 174-194): validation `0 <= quantity <= 1000`. -/
def randomStepGz (monster_type : Nat) (data : List Nat) (pos : Nat) :
    Option MonsterRecord :=
  if pos + 6 < data.length then
    let quantity := le16 data (pos + 4)
    if quantity ≤ 1000 then
      some { type := monster_type, subtype := none,
             quantity := quantity, disposition := Disposition_Aggressive }
    else none
  else none

/-- Body of the Main concrete-monster loop, raw-file fallback branch
(`RajanHoAEditor.py` lines 238-262): validation `0 <= subtype <
len(cd.NAME)` and `1 <= quantity <= 1000`. -/
def concreteStepRaw (NAME : List String) (data : List Nat) (pos : Nat) :
    Option MonsterRecord :=
  if pos + 6 < data.length then
    let subtype := le16 data (pos + 4)
    if pos + 8 < data.length then
      let quantity := le16 data (pos + 6)
      if subtype < NAME.length ∧ (1 ≤ quantity ∧ quantity ≤ 1000) then
        some { type := ID_Monster, subtype := some subtype,
               quantity := quantity, disposition := Disposition_Aggressive }
      else none
    else none
  else none

/-- Body of the Main random-monster loop, raw-file fallback branch
(`RajanHoAEditor.py` lines 281-300): validation `1 <= quantity <= 1000`. -/
def randomStepRaw (monster_type : Nat) (data : List Nat) (pos : Nat) :
    Option MonsterRecord :=
  if pos + 6 < data.length then
    let quantity := le16 data (pos + 4)
    if 1 ≤ quantity ∧ quantity ≤ 1000 then
      some { type := monster_type, subtype := none,
             quantity := quantity, disposition := Disposition_Aggressive }
    else none
  else none

/-- Record collection of Main `parse_map_file`, gzip branch. -/
def scanMainGz (NAME : List String) (data : List Nat) : List (Nat × MonsterRecord) :=
  scanFrom data monster_type_bytes (concreteStepGz NAME data) 0 ++
    (randomTags.map (fun t => scanFrom data (tagBytes t) (randomStepGz t data) 0)).flatten

/-- Record collection of Main `parse_map_file`, raw-file fallback branch. -/
def scanMainRaw (NAME : List String) (data : List Nat) : List (Nat × MonsterRecord) :=
  scanFrom data monster_type_bytes (concreteStepRaw NAME data) 0 ++
    (randomTags.map (fun t => scanFrom data (tagBytes t) (randomStepRaw t data) 0)).flatten

/-- Main `parse_map_file` (`RajanHoAEditor.py` lines 85-314).  The two
load attempts are I/O and are abstracted as `gz` and `raw`: the gzip
attempt is tried first; on its failure the raw read is tried; when both
fail the function returns `[]` (line 311). -/
def parse_map_file_main (NAME : List String) (gz raw : Option (List Nat)) :
    List MonsterRecord :=
  match gz with
  | some data => (scanMainGz NAME data).map Prod.snd
  | none =>
    match raw with
    | some data => (scanMainRaw NAME data).map Prod.snd
    | none => []

/-- Buffer for the `C1` evaluation: one accepted concrete-monster
candidate at offset 0 (creature id 0, quantity 25) whose stored
disposition byte, at offset 18, is 0. -/
def dataC1 : List Nat :=
  [54, 0, 0, 0, 0, 0, 25, 0, 0, 0, 0, 0, 0, 0, 0, 0, 0, 0, 0, 0]

/-! ### Basic facts about `tagAt`, `findTag` and the scan loop -/

theorem tagAt_length_le {data tag : List Nat} {p : Nat}
    (h : tagAt data tag p = true) : p + 4 ≤ data.length := by
  have := congrArg (fun b => b = true) h
  simp [tagAt] at h
  exact h.1

theorem tagAt_false_of_len {data tag : List Nat} {p : Nat}
    (h : data.length < p + 4) : tagAt data tag p = false := by
  unfold tagAt
  rw [Bool.and_eq_false_iff]
  left
  simpa using (by omega : ¬ p + 4 ≤ data.length)

theorem findTagFuel_none_char (data tag : List Nat) :
    ∀ fuel pos, data.length + 1 ≤ fuel + pos →
      findTagFuel data tag fuel pos = none →
      ∀ q, pos ≤ q → tagAt data tag q = false := by
  intro fuel
  induction fuel with
  | zero =>
    intro pos hle _ q hq
    exact tagAt_false_of_len (by omega)
  | succ n ih =>
    intro pos hle h q hq
    simp only [findTagFuel] at h
    by_cases hb : pos + 4 ≤ data.length
    · rw [if_pos hb] at h
      by_cases htag : tagAt data tag pos = true
      · rw [if_pos htag] at h
        exact absurd h (by simp)
      · rw [if_neg htag] at h
        rcases Nat.eq_or_lt_of_le hq with heq | hlt
        · subst heq
          exact Bool.eq_false_iff.mpr htag
        · exact ih (pos + 1) (by omega) h q (by omega)
    · exact tagAt_false_of_len (by omega)

theorem findTagFuel_some_char (data tag : List Nat) :
    ∀ fuel pos p, findTagFuel data tag fuel pos = some p →
      pos ≤ p ∧ tagAt data tag p = true ∧
        ∀ q, pos ≤ q → q < p → tagAt data tag q = false := by
  intro fuel
  induction fuel with
  | zero => intro pos p h; simp [findTagFuel] at h
  | succ n ih =>
    intro pos p h
    simp only [findTagFuel] at h
    by_cases hb : pos + 4 ≤ data.length
    · rw [if_pos hb] at h
      by_cases htag : tagAt data tag pos = true
      · rw [if_pos htag] at h
        have hp : pos = p := by simpa using h
        subst hp
        exact ⟨le_rfl, htag, fun q h1 h2 => absurd h1 (by omega)⟩
      · rw [if_neg htag] at h
        obtain ⟨h1, h2, h3⟩ := ih (pos + 1) p h
        refine ⟨by omega, h2, fun q hq1 hq2 => ?_⟩
        rcases Nat.eq_or_lt_of_le hq1 with heq | hlt
        · subst heq
          exact Bool.eq_false_iff.mpr htag
        · exact h3 q (by omega) hq2
    · rw [if_neg hb] at h
      exact absurd h (by simp)

theorem findTag_none_char {data tag : List Nat} {pos : Nat}
    (h : findTag data tag pos = none) :
    ∀ q, pos ≤ q → tagAt data tag q = false :=
  findTagFuel_none_char data tag _ pos (by omega) h

theorem findTag_some_char {data tag : List Nat} {pos p : Nat}
    (h : findTag data tag pos = some p) :
    pos ≤ p ∧ tagAt data tag p = true ∧
      ∀ q, pos ≤ q → q < p → tagAt data tag q = false :=
  findTagFuel_some_char data tag _ pos p h

theorem scanAll_of_len_le {data tag : List Nat} {step : Nat → Option MonsterRecord}
    {pos : Nat} (h : data.length ≤ pos) : scanAll data tag step pos = [] := by
  unfold scanAll
  rw [Nat.sub_eq_zero_of_le h]
  rfl

theorem scanAll_cons {data tag : List Nat} {step : Nat → Option MonsterRecord}
    {pos : Nat} (h : pos < data.length) :
    scanAll data tag step pos =
      (if tagAt data tag pos then ((step pos).map fun r => (pos, r)).toList else []) ++
        scanAll data tag step (pos + 1) := by
  unfold scanAll
  have hk : data.length - pos = (data.length - (pos + 1)) + 1 := by omega
  rw [hk, List.range'_succ, List.filterMap_cons]
  by_cases htag : tagAt data tag pos = true
  · rw [if_pos htag, if_pos htag]
    cases hstep : step pos <;> simp [hstep]
  · rw [if_neg htag, if_neg htag]
    simp

theorem scanAll_eq_nil {data tag : List Nat} {step : Nat → Option MonsterRecord}
    {pos : Nat} (h : ∀ q, pos ≤ q → tagAt data tag q = false) :
    scanAll data tag step pos = [] := by
  unfold scanAll
  rw [List.filterMap_eq_nil_iff]
  intro a ha
  rw [List.mem_range'_1] at ha
  rw [h a ha.1]
  simp

theorem scanAll_skip_aux (data tag : List Nat) (step : Nat → Option MonsterRecord) :
    ∀ d pos, (∀ q, pos ≤ q → q < pos + d → tagAt data tag q = false) →
      scanAll data tag step pos = scanAll data tag step (pos + d) := by
  intro d
  induction d with
  | zero => intro pos _; rfl
  | succ n ih =>
    intro pos h
    by_cases hl : pos < data.length
    · rw [scanAll_cons hl, h pos le_rfl (by omega)]
      have hrec := ih (pos + 1) (fun q hq1 hq2 => h q (by omega) (by omega))
      rw [show pos + 1 + n = pos + (n + 1) by omega] at hrec
      simpa using hrec
    · rw [scanAll_of_len_le (by omega), scanAll_of_len_le (by omega)]

theorem scanAll_skip {data tag : List Nat} {step : Nat → Option MonsterRecord}
    {pos p : Nat} (hle : pos ≤ p)
    (h : ∀ q, pos ≤ q → q < p → tagAt data tag q = false) :
    scanAll data tag step pos = scanAll data tag step p := by
  have := scanAll_skip_aux data tag step (p - pos) pos
    (fun q h1 h2 => h q h1 (by omega))
  rwa [Nat.add_sub_cancel' hle] at this

theorem scanFromFuel_eq_scanAll (data tag : List Nat)
    (step : Nat → Option MonsterRecord) :
    ∀ fuel pos, data.length + 1 ≤ fuel + pos →
      scanFromFuel data tag step fuel pos = scanAll data tag step pos := by
  intro fuel
  induction fuel with
  | zero =>
    intro pos hle
    rw [scanAll_of_len_le (by omega)]
    rfl
  | succ n ih =>
    intro pos hle
    simp only [scanFromFuel]
    split
    · rename_i hf
      rw [scanAll_eq_nil (findTag_none_char hf)]
    · rename_i p hf
      obtain ⟨hp1, hp2, hp3⟩ := findTag_some_char hf
      have hplen : p < data.length := by
        have := tagAt_length_le hp2
        omega
      rw [ih (p + 1) (by omega), scanAll_skip hp1 hp3, scanAll_cons hplen, hp2]
      cases hstep : step p <;> simp [hstep]

theorem scanFrom_eq_scanAll (data tag : List Nat)
    (step : Nat → Option MonsterRecord) (pos : Nat) :
    scanFrom data tag step pos = scanAll data tag step pos :=
  scanFromFuel_eq_scanAll data tag step _ pos (by omega)

/-! ### Membership, uniqueness and ordering of scan results -/

theorem scanAll_arm_fst {data tag : List Nat} {step : Nat → Option MonsterRecord}
    {q : Nat} {a : Nat × MonsterRecord}
    (h : (if tagAt data tag q then (step q).map (fun r => (q, r)) else none) = some a) :
    a.1 = q ∧ tagAt data tag q = true ∧ step q = some a.2 := by
  by_cases htag : tagAt data tag q = true
  · rw [if_pos htag] at h
    cases hstep : step q with
    | none => rw [hstep] at h; exact absurd h (by simp)
    | some r =>
      rw [hstep] at h
      have : (q, r) = a := by simpa using h
      subst this
      exact ⟨rfl, htag, by simp [hstep]⟩
  · rw [if_neg htag] at h
    exact absurd h (by simp)

theorem mem_scanAll {data tag : List Nat} {step : Nat → Option MonsterRecord}
    {pos p : Nat} {r : MonsterRecord} :
    (p, r) ∈ scanAll data tag step pos ↔
      pos ≤ p ∧ tagAt data tag p = true ∧ step p = some r := by
  unfold scanAll
  rw [List.mem_filterMap]
  constructor
  · rintro ⟨q, hq, hfq⟩
    rw [List.mem_range'_1] at hq
    obtain ⟨h1, h2, h3⟩ := scanAll_arm_fst hfq
    have hpq : q = p := h1.symm
    subst hpq
    exact ⟨hq.1, h2, h3⟩
  · rintro ⟨hle, htag, hstep⟩
    refine ⟨p, ?_, ?_⟩
    · rw [List.mem_range'_1]
      have := tagAt_length_le htag
      omega
    · rw [if_pos htag, hstep]
      rfl

theorem mem_scanFrom {data tag : List Nat} {step : Nat → Option MonsterRecord}
    {p : Nat} {r : MonsterRecord} :
    (p, r) ∈ scanFrom data tag step 0 ↔
      tagAt data tag p = true ∧ step p = some r := by
  rw [scanFrom_eq_scanAll, mem_scanAll]
  simp

theorem filter_fst_filterMap_nil (f : Nat → Option (Nat × MonsterRecord))
    (hf : ∀ q a, f q = some a → a.1 = q) (p : Nat) :
    ∀ l : List Nat, p ∉ l →
      (l.filterMap f).filter (fun a => a.1 == p) = [] := by
  intro l hp
  rw [List.filter_eq_nil_iff]
  intro a ha
  rw [List.mem_filterMap] at ha
  obtain ⟨q, hq, hfa⟩ := ha
  have hq' : a.1 = q := hf q a hfa
  simp only [hq', beq_iff_eq]
  intro heq
  exact hp (heq ▸ hq)

theorem filter_fst_filterMap (f : Nat → Option (Nat × MonsterRecord))
    (hf : ∀ q a, f q = some a → a.1 = q) (p : Nat) :
    ∀ l : List Nat, l.Nodup → p ∈ l →
      (l.filterMap f).filter (fun a => a.1 == p) = (f p).toList := by
  intro l
  induction l with
  | nil => intro _ h; simp at h
  | cons q l ih =>
    intro hnd hp
    rw [List.nodup_cons] at hnd
    rw [List.filterMap_cons]
    cases hfq : f q with
    | none =>
      by_cases hqp : q = p
      · subst hqp
        rw [filter_fst_filterMap_nil f hf q l hnd.1, hfq]
        rfl
      · have hpl : p ∈ l := by
          rcases List.mem_cons.mp hp with h | h
          · exact absurd h.symm hqp
          · exact h
        exact ih hnd.2 hpl
    | some a =>
      have ha1 : a.1 = q := hf q a hfq
      rw [List.filter_cons]
      by_cases hqp : q = p
      · subst hqp
        rw [if_pos (by simp [ha1]), filter_fst_filterMap_nil f hf q l hnd.1, hfq]
        rfl
      · rw [if_neg (by simp [ha1, hqp])]
        have hpl : p ∈ l := by
          rcases List.mem_cons.mp hp with h | h
          · exact absurd h.symm hqp
          · exact h
        exact ih hnd.2 hpl

theorem pairwise_fst_filterMap (f : Nat → Option (Nat × MonsterRecord))
    (hf : ∀ q a, f q = some a → a.1 = q) :
    ∀ l : List Nat, l.Pairwise (· < ·) →
      ((l.filterMap f).map Prod.fst).Pairwise (· < ·) := by
  intro l
  induction l with
  | nil => intro _; simp
  | cons q l ih =>
    intro hpw
    rw [List.pairwise_cons] at hpw
    obtain ⟨hq, hl⟩ := hpw
    rw [List.filterMap_cons]
    cases hfq : f q with
    | none => exact ih hl
    | some a =>
      rw [List.map_cons, List.pairwise_cons]
      refine ⟨?_, ih hl⟩
      intro x hx
      rw [List.mem_map] at hx
      obtain ⟨b, hb, hxb⟩ := hx
      rw [List.mem_filterMap] at hb
      obtain ⟨q', hq', hfb⟩ := hb
      have hb1 : b.1 = q' := hf q' b hfb
      have ha1 : a.1 = q := hf q a hfq
      rw [← hxb, hb1, ha1]
      exact hq q' hq'

theorem pairwise_lt_range1 : ∀ (n pos : Nat), (List.range' pos n).Pairwise (· < ·) := by
  intro n
  induction n with
  | zero => intro pos; simp
  | succ m ih =>
    intro pos
    rw [List.range'_succ, List.pairwise_cons]
    refine ⟨?_, ih (pos + 1)⟩
    intro q hq
    rw [List.mem_range'_1] at hq
    omega

theorem nodup_range1 (n pos : Nat) : (List.range' pos n).Nodup :=
  (pairwise_lt_range1 n pos).imp Nat.ne_of_lt

theorem scanFrom_fst_pairwise (data tag : List Nat)
    (step : Nat → Option MonsterRecord) :
    ((scanFrom data tag step 0).map Prod.fst).Pairwise (· < ·) := by
  rw [scanFrom_eq_scanAll]
  unfold scanAll
  exact pairwise_fst_filterMap _ (fun q a ha => (scanAll_arm_fst ha).1) _
    (pairwise_lt_range1 _ _)

theorem scanFrom_filter_offset {data tag : List Nat}
    {step : Nat → Option MonsterRecord} {p : Nat} {r : MonsterRecord}
    (htag : tagAt data tag p = true) (hstep : step p = some r) :
    (scanFrom data tag step 0).filter (fun a => a.1 == p) = [(p, r)] := by
  rw [scanFrom_eq_scanAll]
  unfold scanAll
  have hmem : p ∈ List.range' 0 (data.length - 0) := by
    rw [List.mem_range'_1]
    have := tagAt_length_le htag
    omega
  rw [filter_fst_filterMap _ (fun q a ha => (scanAll_arm_fst ha).1) p _
    (nodup_range1 _ _) hmem, if_pos htag, hstep]
  rfl

/-! ### Every step body stamps disposition 2 on the records it yields -/

theorem concreteStepV1_disp {NAME : List String} {data : List Nat} {pos : Nat}
    {r : MonsterRecord} (h : concreteStepV1 NAME data pos = some r) :
    r.disposition = 2 := by
  unfold concreteStepV1 at h
  split at h
  · simp only [] at h
    split at h
    · split at h
      · cases Option.some.inj h; rfl
      · cases h
    · cases h
  · cases h

theorem randomStepV1_disp {t : Nat} {data : List Nat} {pos : Nat}
    {r : MonsterRecord} (h : randomStepV1 t data pos = some r) :
    r.disposition = 2 := by
  unfold randomStepV1 at h
  split at h
  · simp only [] at h
    split at h
    · cases Option.some.inj h; rfl
    · cases h
  · cases h

theorem concreteStepGz_disp {NAME : List String} {data : List Nat} {pos : Nat}
    {r : MonsterRecord} (h : concreteStepGz NAME data pos = some r) :
    r.disposition = 2 := by
  unfold concreteStepGz at h
  split at h
  · simp only [] at h
    split at h
    · split at h
      · cases Option.some.inj h; rfl
      · cases h
    · cases h
  · cases h

theorem randomStepGz_disp {t : Nat} {data : List Nat} {pos : Nat}
    {r : MonsterRecord} (h : randomStepGz t data pos = some r) :
    r.disposition = 2 := by
  unfold randomStepGz at h
  split at h
  · simp only [] at h
    split at h
    · cases Option.some.inj h; rfl
    · cases h
  · cases h

theorem concreteStepRaw_disp {NAME : List String} {data : List Nat} {pos : Nat}
    {r : MonsterRecord} (h : concreteStepRaw NAME data pos = some r) :
    r.disposition = 2 := by
  unfold concreteStepRaw at h
  split at h
  · simp only [] at h
    split at h
    · split at h
      · cases Option.some.inj h; rfl
      · cases h
    · cases h
  · cases h

theorem randomStepRaw_disp {t : Nat} {data : List Nat} {pos : Nat}
    {r : MonsterRecord} (h : randomStepRaw t data pos = some r) :
    r.disposition = 2 := by
  unfold randomStepRaw at h
  split at h
  · simp only [] at h
    split at h
    · cases Option.some.inj h; rfl
    · cases h
  · cases h

theorem scanV1_disp {NAME : List String} {data : List Nat} :
    ∀ pr ∈ scanV1 NAME data, (Prod.snd pr).disposition = 2 := by
  intro pr hpr
  unfold scanV1 at hpr
  rw [List.mem_append] at hpr
  rcases hpr with h | h
  · obtain ⟨p, r⟩ := pr
    exact concreteStepV1_disp (mem_scanFrom.mp h).2
  · rw [List.mem_flatten] at h
    obtain ⟨l, hl, hprl⟩ := h
    rw [List.mem_map] at hl
    obtain ⟨t, _, rfl⟩ := hl
    obtain ⟨p, r⟩ := pr
    exact randomStepV1_disp (mem_scanFrom.mp hprl).2

theorem scanMainGz_disp {NAME : List String} {data : List Nat} :
    ∀ pr ∈ scanMainGz NAME data, (Prod.snd pr).disposition = 2 := by
  intro pr hpr
  unfold scanMainGz at hpr
  rw [List.mem_append] at hpr
  rcases hpr with h | h
  · obtain ⟨p, r⟩ := pr
    exact concreteStepGz_disp (mem_scanFrom.mp h).2
  · rw [List.mem_flatten] at h
    obtain ⟨l, hl, hprl⟩ := h
    rw [List.mem_map] at hl
    obtain ⟨t, _, rfl⟩ := hl
    obtain ⟨p, r⟩ := pr
    exact randomStepGz_disp (mem_scanFrom.mp hprl).2

theorem scanMainRaw_disp {NAME : List String} {data : List Nat} :
    ∀ pr ∈ scanMainRaw NAME data, (Prod.snd pr).disposition = 2 := by
  intro pr hpr
  unfold scanMainRaw at hpr
  rw [List.mem_append] at hpr
  rcases hpr with h | h
  · obtain ⟨p, r⟩ := pr
    exact concreteStepRaw_disp (mem_scanFrom.mp h).2
  · rw [List.mem_flatten] at h
    obtain ⟨l, hl, hprl⟩ := h
    rw [List.mem_map] at hl
    obtain ⟨t, _, rfl⟩ := hl
    obtain ⟨p, r⟩ := pr
    exact randomStepRaw_disp (mem_scanFrom.mp hprl).2

/-! ### The claims -/

/-- Claim C1, evaluated at a failing input.  The claim says the mutating
path (`SetMonsterProperty`) forces the disposition byte at `p + 18` of the
shared buffer to 2; in the source the patch (V1 lines 114-119) is
commented out, so the buffer is written back unchanged.  `dataC1` carries
one accepted candidate at offset 0 whose stored disposition byte, at
offset 18, is 0: after the scan and write, that byte is still 0, not 2. -/
theorem C1_mutating_path_leaves_disposition_byte_unpatched :
    (parse_map_file ["Pikeman"] (some dataC1)).1 =
      [{ type := ID_Monster, subtype := some 0, quantity := 25,
         disposition := Disposition_Aggressive }] ∧
    SetMonsterProperty ["Pikeman"] (some dataC1) = some ("Do2.h3m", dataC1) ∧
    dataC1.getD 18 0 = 0 ∧
    ((dataC1.getD 18 0 == 2) = false) := by decide

/-- Claim C2: whenever the concrete-monster tag matches at offset `p` but
`p + 8 ≥ len(buffer)`, that occurrence yields no record in either script:
the candidate body answers `none`, nothing at offset `p` reaches the
result list, and the scan resumed at `p` is exactly the scan resumed at
`p + 1`. -/
theorem C2_tag_near_end_yields_no_record (NAME : List String) (data : List Nat)
    (p : Nat) (htag : tagAt data monster_type_bytes p = true)
    (hlen : data.length ≤ p + 8) :
    concreteStepV1 NAME data p = none ∧
    concreteStepGz NAME data p = none ∧
    concreteStepRaw NAME data p = none ∧
    (∀ r : MonsterRecord,
      (p, r) ∉ scanFrom data monster_type_bytes (concreteStepV1 NAME data) 0) ∧
    scanFrom data monster_type_bytes (concreteStepV1 NAME data) p =
      scanFrom data monster_type_bytes (concreteStepV1 NAME data) (p + 1) := by
  have hstep : concreteStepV1 NAME data p = none := by
    unfold concreteStepV1
    split
    · split
      · rename_i hb
        exact absurd hb (by omega)
      · rfl
    · rfl
  have hstepGz : concreteStepGz NAME data p = none := by
    unfold concreteStepGz
    split
    · split
      · rename_i hb
        exact absurd hb (by omega)
      · rfl
    · rfl
  have hstepRaw : concreteStepRaw NAME data p = none := by
    unfold concreteStepRaw
    split
    · split
      · rename_i hb
        exact absurd hb (by omega)
      · rfl
    · rfl
  refine ⟨hstep, hstepGz, hstepRaw, ?_, ?_⟩
  · intro r hmem
    rw [mem_scanFrom, hstep] at hmem
    exact absurd hmem.2 (by simp)
  · rw [scanFrom_eq_scanAll, scanFrom_eq_scanAll]
    have hplen : p < data.length := by
      have := tagAt_length_le htag
      omega
    rw [scanAll_cons hplen, htag, hstep]
    simp

/-- Witness for C2 at a concrete input: the tag fills the whole 4-byte
buffer, so `p = 0` matches with `len = 4 ≤ 8`, and the candidate yields
nothing. -/
theorem C2_witness :
    concreteStepV1 ["Pikeman"] [54, 0, 0, 0] 0 = none ∧
    scanFrom [54, 0, 0, 0] monster_type_bytes
        (concreteStepV1 ["Pikeman"] [54, 0, 0, 0]) 0 =
      scanFrom [54, 0, 0, 0] monster_type_bytes
        (concreteStepV1 ["Pikeman"] [54, 0, 0, 0]) 1 := by
  have h := C2_tag_near_end_yields_no_record ["Pikeman"] [54, 0, 0, 0] 0
    (by decide) (by decide)
  exact ⟨h.1, h.2.2.2.2⟩

/-- Claim C6: the scan loop visits every (possibly overlapping) occurrence
of the 4-byte tag, left to right, advancing the cursor by one byte after
each match: it equals the per-position scan `scanAll`, a pair `(p, r)` is
produced exactly when the tag matches at `p` and the candidate body yields
`r` there, and two matches one byte apart each get their own independent
candidate evaluation. -/
theorem C6_scan_visits_every_occurrence (data tag : List Nat)
    (step : Nat → Option MonsterRecord) :
    scanFrom data tag step 0 = scanAll data tag step 0 ∧
    (∀ (p : Nat) (r : MonsterRecord),
      (p, r) ∈ scanFrom data tag step 0 ↔
        tagAt data tag p = true ∧ step p = some r) ∧
    (∀ (p : Nat) (r1 r2 : MonsterRecord),
      tagAt data tag p = true → tagAt data tag (p + 1) = true →
      step p = some r1 → step (p + 1) = some r2 →
      (p, r1) ∈ scanFrom data tag step 0 ∧
        (p + 1, r2) ∈ scanFrom data tag step 0) := by
  refine ⟨scanFrom_eq_scanAll data tag step 0, fun p r => mem_scanFrom, ?_⟩
  intro p r1 r2 h1 h2 h3 h4
  exact ⟨mem_scanFrom.mpr ⟨h1, h3⟩, mem_scanFrom.mpr ⟨h2, h4⟩⟩

/-- Witness for C6 at a concrete input with two tag matches one byte
apart (a tag of four equal bytes, the only way a 4-byte pattern can
self-overlap at distance one): both candidate evaluations land in the
result. -/
theorem C6_witness :
    (0, ({ type := 54, subtype := none, quantity := 0, disposition := 2 } :
        MonsterRecord)) ∈
      scanFrom [0, 0, 0, 0, 0] [0, 0, 0, 0]
        (fun p => some { type := 54, subtype := none, quantity := p,
                         disposition := 2 }) 0 ∧
    (1, ({ type := 54, subtype := none, quantity := 1, disposition := 2 } :
        MonsterRecord)) ∈
      scanFrom [0, 0, 0, 0, 0] [0, 0, 0, 0]
        (fun p => some { type := 54, subtype := none, quantity := p,
                         disposition := 2 }) 0 :=
  (C6_scan_visits_every_occurrence [0, 0, 0, 0, 0] [0, 0, 0, 0]
      (fun p => some { type := 54, subtype := none, quantity := p,
                       disposition := 2 })).2.2
    0 _ _ (by decide) (by decide) rfl rfl

/-- Claim C7: a file whose contents cannot be loaded (the gzip attempt
fails and, in the Main variant, the raw-file fallback fails as well)
yields the empty record list, not an error, and the mutating caller
performs no write. -/
theorem C7_load_failure_yields_empty (NAME : List String) :
    parse_map_file NAME none = ([], none) ∧
    parse_map_file_main NAME none none = [] ∧
    SetMonsterProperty NAME none = none :=
  ⟨rfl, rfl, rfl⟩

/-- Claim C3: a well-formed concrete-monster candidate (tag at `p`, reads
passing the scanner's bounds guards, creature id inside the table,
quantity at most 1000) yields exactly one record for that occurrence, with
the decoded id and quantity, and the record resolves to the correct
creature name. -/
theorem C3_wellformed_record_yields_exactly_one (NAME : List String)
    (data : List Nat) (p : Nat)
    (htag : tagAt data monster_type_bytes p = true)
    (hb : p + 8 < data.length)
    (hcid : le16 data (p + 4) < NAME.length)
    (hq : le16 data (p + 6) ≤ 1000) :
    concreteStepV1 NAME data p =
      some { type := ID_Monster, subtype := some (le16 data (p + 4)),
             quantity := le16 data (p + 6),
             disposition := Disposition_Aggressive } ∧
    (p, ({ type := ID_Monster, subtype := some (le16 data (p + 4)),
           quantity := le16 data (p + 6),
           disposition := Disposition_Aggressive } : MonsterRecord)) ∈
      scanFrom data monster_type_bytes (concreteStepV1 NAME data) 0 ∧
    (scanFrom data monster_type_bytes (concreteStepV1 NAME data) 0).filter
        (fun a => a.1 == p) =
      [(p, { type := ID_Monster, subtype := some (le16 data (p + 4)),
             quantity := le16 data (p + 6),
             disposition := Disposition_Aggressive })] ∧
    creatureName NAME
        { type := ID_Monster, subtype := some (le16 data (p + 4)),
          quantity := le16 data (p + 6),
          disposition := Disposition_Aggressive } =
      NAME.getD (le16 data (p + 4)) "Unknown" := by
  have hstep : concreteStepV1 NAME data p =
      some { type := ID_Monster, subtype := some (le16 data (p + 4)),
             quantity := le16 data (p + 6),
             disposition := Disposition_Aggressive } := by
    unfold concreteStepV1
    rw [if_pos (by omega : p + 6 < data.length)]
    simp only []
    rw [if_pos hb, if_pos ⟨hcid, hq⟩]
    rfl
  refine ⟨hstep, mem_scanFrom.mpr ⟨htag, hstep⟩,
    scanFrom_filter_offset htag hstep, ?_⟩
  unfold creatureName
  rw [if_pos rfl]
  simp only [Option.getD_some]
  rw [if_pos hcid]

/-- Witness for C3 at a concrete input: one record, creature 0
(`Pikeman`), quantity 25, at offset 0 of a 9-byte buffer. -/
theorem C3_witness :
    concreteStepV1 ["Pikeman"] [54, 0, 0, 0, 0, 0, 25, 0, 9] 0 =
      some { type := ID_Monster, subtype := some 0, quantity := 25,
             disposition := Disposition_Aggressive } ∧
    creatureName ["Pikeman"]
        { type := ID_Monster, subtype := some 0, quantity := 25,
          disposition := Disposition_Aggressive } = "Pikeman" := by
  have h := C3_wellformed_record_yields_exactly_one ["Pikeman"]
    [54, 0, 0, 0, 0, 0, 25, 0, 9] 0 (by decide) (by decide) (by decide) (by decide)
  exact ⟨h.1, h.2.2.2⟩

/-- Claim C4: a concrete-monster candidate whose decoded creature id
equals or exceeds the creature-table length is discarded by every scanner
variant, even with the other fields well-formed; no record for that
occurrence reaches the result list. -/
theorem C4_out_of_table_creature_id_discarded (NAME : List String)
    (data : List Nat) (p : Nat)
    (_htag : tagAt data monster_type_bytes p = true)
    (hb : p + 8 < data.length)
    (hcid : NAME.length ≤ le16 data (p + 4)) :
    concreteStepV1 NAME data p = none ∧
    concreteStepGz NAME data p = none ∧
    concreteStepRaw NAME data p = none ∧
    ∀ r : MonsterRecord,
      (p, r) ∉ scanFrom data monster_type_bytes (concreteStepV1 NAME data) 0 := by
  have hstep : concreteStepV1 NAME data p = none := by
    unfold concreteStepV1
    rw [if_pos (by omega : p + 6 < data.length)]
    simp only []
    rw [if_pos hb, if_neg (fun hc => absurd hc.1 (by omega))]
  have hstepGz : concreteStepGz NAME data p = none := by
    unfold concreteStepGz
    rw [if_pos (by omega : p + 6 < data.length)]
    simp only []
    rw [if_pos hb, if_neg (fun hc => absurd hc.1 (by omega))]
  have hstepRaw : concreteStepRaw NAME data p = none := by
    unfold concreteStepRaw
    rw [if_pos (by omega : p + 6 < data.length)]
    simp only []
    rw [if_pos hb, if_neg (fun hc => absurd hc.1 (by omega))]
  refine ⟨hstep, hstepGz, hstepRaw, fun r hmem => ?_⟩
  rw [mem_scanFrom, hstep] at hmem
  exact absurd hmem.2 (by simp)

/-- Witness for C4 at a concrete input: an empty creature table makes
creature id 0 out of bounds, and the otherwise well-formed candidate is
dropped. -/
theorem C4_witness :
    concreteStepV1 [] [54, 0, 0, 0, 0, 0, 25, 0, 9] 0 = none ∧
    concreteStepRaw [] [54, 0, 0, 0, 0, 0, 25, 0, 9] 0 = none := by
  have h := C4_out_of_table_creature_id_discarded []
    [54, 0, 0, 0, 0, 0, 25, 0, 9] 0 (by decide) (by decide) (by decide)
  exact ⟨h.1, h.2.2.1⟩

/-- Claim C5: the V1 result list is the concrete-monster records (match
offsets strictly increasing) followed by the groups of the random-monster
tags taken in the order 71, 72, 73, 74, 75, 162, 163, 164, each group with
strictly increasing match offsets; the concatenation is not globally in
offset order, as the concrete two-group buffer in the last conjunct shows
(its joined offset list is `[8, 0]`). -/
theorem C5_record_list_group_order (NAME : List String) (data : List Nat) :
    (parse_map_file NAME (some data)).1 =
      (scanFrom data monster_type_bytes (concreteStepV1 NAME data) 0).map
          Prod.snd ++
        (randomTags.map (fun t =>
          (scanFrom data (tagBytes t) (randomStepV1 t data) 0).map
            Prod.snd)).flatten ∧
    ((scanFrom data monster_type_bytes (concreteStepV1 NAME data) 0).map
        Prod.fst).Pairwise (· < ·) ∧
    (∀ t : Nat,
      ((scanFrom data (tagBytes t) (randomStepV1 t data) 0).map
          Prod.fst).Pairwise (· < ·)) ∧
    randomTags = [71, 72, 73, 74, 75, 162, 163, 164] ∧
    (scanV1 ["x"] [72, 0, 0, 0, 5, 0, 0, 0, 71, 0, 0, 0, 5, 0, 0]).map
        Prod.fst = [8, 0] := by
  refine ⟨?_, scanFrom_fst_pairwise _ _ _,
    fun t => scanFrom_fst_pairwise _ _ _, rfl, by decide⟩
  simp only [parse_map_file, scanV1, List.map_append, List.map_flatten,
    List.map_map]
  rfl

/-- Claim C8, counterexample: on a buffer with zero signature matches
(no tag of any signature occurs in `[1, 2, 3]`), `SetMonsterProperty`
produces no output file at all — it answers `none` instead of writing a
byte-identical copy, so the claim as stated fails here. -/
theorem C8_counterexample_no_file_on_zero_matches :
    findTag [1, 2, 3] monster_type_bytes 0 = none ∧
    randomTags.all (fun t => (findTag [1, 2, 3] (tagBytes t) 0).isNone) = true ∧
    (parse_map_file ["Pikeman"] (some [1, 2, 3])).1 = [] ∧
    SetMonsterProperty ["Pikeman"] (some [1, 2, 3]) = none := by decide

/-- Claim C8 as amended: on a buffer whose scan yields zero records (in
particular on zero signature matches), the mutating path writes no output
file at all, and the scan leaves the loaded buffer unchanged, so no
spurious write of any kind occurs. -/
theorem C8_zero_matches_no_write (NAME : List String) (data : List Nat)
    (h : (parse_map_file NAME (some data)).1 = []) :
    SetMonsterProperty NAME (some data) = none ∧
    (parse_map_file NAME (some data)).2 = some data := by
  refine ⟨?_, rfl⟩
  unfold SetMonsterProperty
  simp [h]

/-- Witness for the amended C8 at a concrete input with no matches. -/
theorem C8_witness :
    SetMonsterProperty ["Pikeman"] (some [9, 9, 9]) = none := by
  have h := C8_zero_matches_no_write ["Pikeman"] [9, 9, 9] (by decide)
  exact h.1

/-- Claim C9: whenever `SetMonsterProperty` writes an output file, the
written contents equal the loaded buffer (same length, every byte
unchanged — in particular every byte outside the disposition offsets of
accepted candidates), the write goes to the fixed fresh path `Do2.h3m`,
and any input path other than `Do2.h3m` is never the write target. -/
theorem C9_write_back_frame (NAME : List String) (filename : String)
    (data : List Nat) (path : String) (written : List Nat)
    (hw : SetMonsterProperty NAME (some data) = some (path, written)) :
    path = "Do2.h3m" ∧ written = data ∧ written.length = data.length ∧
    (∀ i : Nat, written.getD i 0 = data.getD i 0) ∧
    (filename ≠ "Do2.h3m" → path ≠ filename) := by
  unfold SetMonsterProperty at hw
  simp only [parse_map_file] at hw
  split at hw
  · exact absurd hw (by simp)
  · have hw' : ("Do2.h3m", data) = (path, written) := by simpa using hw
    injection hw' with ha hb
    subst ha
    subst hb
    exact ⟨rfl, rfl, rfl, fun i => rfl, fun hne => hne.symm⟩

/-- Witness for C9 at a concrete input: one accepted candidate, so the
write happens, to `Do2.h3m`, with the buffer passed through unchanged. -/
theorem C9_witness :
    ("Do2.h3m" : String) = "Do2.h3m" ∧
    ([54, 0, 0, 0, 0, 0, 25, 0, 9] : List Nat).getD 6 0 = 25 := by
  have h := C9_write_back_frame ["Pikeman"] "Do.h3m"
    [54, 0, 0, 0, 0, 0, 25, 0, 9] "Do2.h3m" [54, 0, 0, 0, 0, 0, 25, 0, 9]
    (by decide)
  exact ⟨h.1, by decide⟩

/-- Claim C10: every record returned by any scanner variant — the V1
read/write path and both branches of the Main read path — carries
disposition `Aggressive` (code 2), whatever the buffer holds at the
stored-disposition offsets; the step bodies stamp the constant 2 and never
read those bytes into the record. -/
theorem C10_all_records_aggressive (NAME : List String)
    (load gz raw : Option (List Nat)) (r : MonsterRecord) :
    (r ∈ (parse_map_file NAME load).1 → r.disposition = Disposition_Aggressive) ∧
    (r ∈ parse_map_file_main NAME gz raw →
      r.disposition = Disposition_Aggressive) := by
  constructor
  · intro hr
    cases load with
    | none => simp [parse_map_file] at hr
    | some data =>
      simp only [parse_map_file] at hr
      rw [List.mem_map] at hr
      obtain ⟨pr, hpr, rfl⟩ := hr
      exact scanV1_disp pr hpr
  · intro hr
    cases gz with
    | some data =>
      simp only [parse_map_file_main] at hr
      rw [List.mem_map] at hr
      obtain ⟨pr, hpr, rfl⟩ := hr
      exact scanMainGz_disp pr hpr
    | none =>
      cases raw with
      | some data =>
        simp only [parse_map_file_main] at hr
        rw [List.mem_map] at hr
        obtain ⟨pr, hpr, rfl⟩ := hr
        exact scanMainRaw_disp pr hpr
      | none => simp [parse_map_file_main] at hr

/-- Witness for C10 at a concrete input: the single record parsed from a
one-candidate buffer has disposition 2. -/
theorem C10_witness :
    ({ type := ID_Monster, subtype := some 0, quantity := 25,
       disposition := Disposition_Aggressive } : MonsterRecord).disposition =
      Disposition_Aggressive := by
  have h := C10_all_records_aggressive ["Pikeman"]
    (some [54, 0, 0, 0, 0, 0, 25, 0, 9]) none none
    { type := ID_Monster, subtype := some 0, quantity := 25,
      disposition := Disposition_Aggressive }
  exact h.1 (by decide)

end HoMM3
